import Mathlib

set_option autoImplicit false

/-!
Verification of the Nilakkal parking occupancy tracker: a shallow embedding of its
vehicle-entry bookkeeping, the three client restore variants, the event-replay state
reconstructor, the local snapshot store, and the quick-recovery controllers, together
with theorems settling the specification claims about them.
-/

namespace ParkingVerify

/-- Vehicle classes: the keys of the limits and stats objects in shared/schema.ts and
the client VehicleType union. -/
inductive VehicleType where
  | heavy
  | medium
  | light
deriving DecidableEq, Repr

/-- Per-class counters, the common shape of the limits and stats objects. -/
structure TypeCounts where
  heavy : Nat
  medium : Nat
  light : Nat
deriving DecidableEq, Repr

/-- The all-zero stats object used to initialise and reset zones. -/
def TypeCounts.zero : TypeCounts := ⟨0, 0, 0⟩

/-- Field access counts[t]. -/
def TypeCounts.get (c : TypeCounts) : VehicleType → Nat
  | .heavy => c.heavy
  | .medium => c.medium
  | .light => c.light

/-- Field increment counts[t] += 1. -/
def TypeCounts.inc (c : TypeCounts) : VehicleType → TypeCounts
  | .heavy => { c with heavy := c.heavy + 1 }
  | .medium => { c with medium := c.medium + 1 }
  | .light => { c with light := c.light + 1 }

/-- Sum of the three per-class counters. -/
def TypeCounts.total (c : TypeCounts) : Nat := c.heavy + c.medium + c.light

/-- Server-side parking zone row (shared/schema.ts zones table). -/
structure ServerZone where
  id : String
  name : String
  capacity : Nat
  occupied : Nat
  limits : TypeCounts
  stats : TypeCounts
deriving DecidableEq, Repr

/-- Recognise a raw vehicle-type string as one of the three declared classes. -/
def parseVehicleType (s : String) : Option VehicleType :=
  if s == "heavy" then some .heavy
  else if s == "medium" then some .medium
  else if s == "light" then some .light
  else none

/-- The statement zone.stats[type] += 1 of MemStorage.createVehicleEntry. The index is
an unchecked cast in the source, so an unrecognised type string writes NaN to a stray
property and leaves the three declared counters unchanged; the model therefore
increments only when the string names a declared class. -/
def statsBump (c : TypeCounts) (ty : String) : TypeCounts :=
  match parseVehicleType ty with
  | some t => c.inc t
  | none => c

/-- MemStorage.createVehicleEntry (src/unnamed/part_009, reached from POST /api/enter in
server/routes.ts): look the zone up by id, throw Zone not found when absent (also when
the zone field was omitted from the request, since Map.get(undefined) misses), then
increment occupied and stats[type] unconditionally. No capacity or per-class limit is
consulted. The nondeterministic ticket string generated by the route is not modelled. -/
def createVehicleEntry (zones : List ServerZone) (zoneId : Option String) (ty : String) :
    Except String (List ServerZone) :=
  match zoneId with
  | none => .error "Zone not found"
  | some zid =>
    match zones.find? (fun z => z.id == zid) with
    | none => .error "Zone not found"
    | some z =>
      let z2 : ServerZone :=
        { z with occupied := z.occupied + 1, stats := statsBump z.stats ty }
      .ok (zones.map (fun w => if w.id == zid then z2 else w))

/-- A sequence of entry requests (zone field, type field) replayed through POST
/api/enter in order, stopping at the first thrown error. -/
def entryChain (zones : List ServerZone) (reqs : List (Option String × String)) :
    Except String (List ServerZone) :=
  match reqs with
  | [] => .ok zones
  | r :: rs =>
    match createVehicleEntry zones r.1 r.2 with
    | .error e => .error e
    | .ok zs => entryChain zs rs

/-- Live in-memory vehicle (client ParkingZone.vehicles element). entryTime keeps the
raw timeIn string; the nondeterministic ticket id (Date.now and Math.random) is not
modelled, and restore never sets a slot. -/
structure Vehicle where
  number : String
  entryTime : String
  zoneId : String
  type : VehicleType
deriving DecidableEq, Repr

/-- Client-side parking zone (lib/parking-context ParkingZone). -/
structure Zone where
  id : String
  name : String
  capacity : Nat
  occupied : Nat
  vehicles : List Vehicle
  limits : TypeCounts
  stats : TypeCounts
deriving DecidableEq, Repr

/-- Snapshot and restore record (utils/persistence.ts VehicleRecord). timeOut none
models null or undefined; type is kept raw and validated by the restore functions. -/
structure VehicleRecord where
  plate : String
  zone : String
  timeIn : String
  timeOut : Option String
  type : String
deriving DecidableEq, Repr

/-- JavaScript truthiness of rec.timeOut: null, undefined and the empty string are
falsy, every other string is truthy. -/
def truthy : Option String → Bool
  | none => false
  | some s => !(s == "")

/-- The type validation shared by the restore variants: heavy, medium and light pass
and anything else is coerced to light. -/
def coerceType (s : String) : VehicleType :=
  if s == "heavy" then .heavy
  else if s == "medium" then .medium
  else if s == "light" then .light
  else .light

/-- Does the text start with the pattern (character lists)? -/
def charsStartsWith : List Char → List Char → Bool
  | [], _ => true
  | _ :: _, [] => false
  | c :: p, d :: t => c == d && charsStartsWith p t

/-- Does the text contain the pattern as a contiguous run (character lists)? -/
def charsContains (p : List Char) : List Char → Bool
  | [] => charsStartsWith p []
  | d :: t => charsStartsWith p (d :: t) || charsContains p t

/-- JavaScript String.prototype.includes: substring containment. -/
def strIncludes (s pat : String) : Bool := charsContains pat.data s.data

/-- ZONE_CAPACITY = 50 in the fixed-zone parking context. -/
def ZONE_CAPACITY : Nat := 50

/-- One INITIAL_ZONES element. The source computes Math.floor(50 * 0.2) = 10 heavy and
Math.floor(50 * 0.3) = 15 medium (both float products round to those exact values), so
the Nat arithmetic below agrees with the source for this fixed capacity. -/
def initialZone (i : Nat) : Zone :=
  let heavyLimit := ZONE_CAPACITY * 2 / 10
  let mediumLimit := ZONE_CAPACITY * 3 / 10
  let lightLimit := ZONE_CAPACITY - heavyLimit - mediumLimit
  { id := "Z" ++ Nat.repr (i + 1)
    name := "Nilakkal Parking Zone " ++ Nat.repr (i + 1)
    capacity := ZONE_CAPACITY
    occupied := 0
    vehicles := []
    limits := ⟨heavyLimit, mediumLimit, lightLimit⟩
    stats := TypeCounts.zero }

/-- INITIAL_ZONES: the twenty fixed zones Z1 .. Z20. -/
def initialZones : List Zone := (List.range 20).map initialZone

/-- The reset applied at the top of every restore: occupied 0, vehicles [], stats 0. -/
def resetZone (z : Zone) : Zone :=
  { z with occupied := 0, vehicles := [], stats := TypeCounts.zero }

/-- Push the restored vehicle and bump the counters: the shared tail of every restore
loop (vehicles.push, occupied++, stats[type]++). -/
def addVehicle (z : Zone) (rec : VehicleRecord) (ty : VehicleType) : Zone :=
  { z with
    vehicles := z.vehicles ++ [⟨rec.plate, rec.timeIn, z.id, ty⟩]
    occupied := z.occupied + 1
    stats := z.stats.inc ty }

/-- Zone resolution of the fixed-zone restoreData (src/unnamed/part_002): exact name
match, then exact id match, then, when rec.zone is truthy, fuzzy containment
(z.name.includes(rec.zone) or rec.zone.includes(z.id)), finally newZones[0]. The none
result occurs only for an empty zone list, on which the source would crash; the
function is only ever applied to the twenty INITIAL_ZONES. -/
def resolveZone002 (zones : List Zone) (recZone : String) : Option Nat :=
  match zones.findIdx? (fun z => z.name == recZone) with
  | some i => some i
  | none =>
    match zones.findIdx? (fun z => z.id == recZone) with
    | some i => some i
    | none =>
      match (if !(recZone == "") then
              zones.findIdx? (fun z => strIncludes z.name recZone || strIncludes recZone z.id)
            else none) with
      | some i => some i
      | none => if zones.isEmpty then none else some 0

/-- One record of the part_002 restore loop: skip records with truthy timeOut, resolve
the zone, coerce the type; when the resolved zone is at capacity or at the class limit,
divert to the first zone with room for the class, dropping the record when none has. -/
def restoreStep002 (zones : List Zone) (rec : VehicleRecord) : List Zone :=
  if truthy rec.timeOut then zones
  else
    match resolveZone002 zones rec.zone with
    | none => zones
    | some i =>
      match zones[i]? with
      | none => zones
      | some z =>
        let ty := coerceType rec.type
        let target : Option Nat :=
          if z.occupied ≥ z.capacity || z.stats.get ty ≥ z.limits.get ty then
            zones.findIdx? (fun w => w.occupied < w.capacity && w.stats.get ty < w.limits.get ty)
          else some i
        match target with
        | none => zones
        | some j =>
          match zones[j]? with
          | none => zones
          | some w => zones.set j (addVehicle w rec ty)

/-- restoreData of the fixed-zone client (src/unnamed/part_002): rebuild from a reset
copy of INITIAL_ZONES and fold the records in order; setZones then replaces the whole
in-memory zone list with the result. -/
def restoreData002 (records : List VehicleRecord) : List Zone :=
  records.foldl restoreStep002 (initialZones.map resetZone)

/-- Zone resolution of the lib/api.ts restoreData: exact name-or-id match, else
newZones[0] (guarded here against the empty list, on which the source would crash; it
is only ever applied to the twenty INITIAL_ZONES). -/
def resolveZoneApi (zones : List Zone) (recZone : String) : Option Nat :=
  match zones.findIdx? (fun z => z.name == recZone || z.id == recZone) with
  | some i => some i
  | none => if zones.isEmpty then none else some 0

/-- One record of the lib/api.ts restore loop: skip records with truthy timeOut,
resolve the zone, coerce the type, and add only while both the capacity and the class
limit have room, dropping the record otherwise. -/
def restoreStepApi (zones : List Zone) (rec : VehicleRecord) : List Zone :=
  if truthy rec.timeOut then zones
  else
    match resolveZoneApi zones rec.zone with
    | none => zones
    | some i =>
      match zones[i]? with
      | none => zones
      | some z =>
        let ty := coerceType rec.type
        if z.occupied < z.capacity && z.stats.get ty < z.limits.get ty then
          zones.set i (addVehicle z rec ty)
        else zones

/-- restoreData of src/client/src/lib/api.ts: reset copy of INITIAL_ZONES folded over
the records; a full replacement of the zone list, like part_002. -/
def restoreDataApi (records : List VehicleRecord) : List Zone :=
  records.foldl restoreStepApi (initialZones.map resetZone)

/-- Zone resolution of the dynamic restoreData (src/unnamed/part_003): exact name-or-id
match against the current dynamic zones, else the first current zone, else (no zones at
all) skip the record. -/
def resolveZoneDyn (zones : List Zone) (recZone : String) : Option Nat :=
  match zones.findIdx? (fun z => z.name == recZone || z.id == recZone) with
  | some i => some i
  | none => if zones.isEmpty then none else some 0

/-- One record of the part_003 restore loop: no timeOut filter, resolve the zone,
coerce the type, add while occupied < capacity (no class-limit check). -/
def restoreStepDyn (zones : List Zone) (rec : VehicleRecord) : List Zone :=
  match resolveZoneDyn zones rec.zone with
  | none => zones
  | some i =>
    match zones[i]? with
    | none => zones
    | some z =>
      let ty := coerceType rec.type
      if z.occupied < z.capacity then zones.set i (addVehicle z rec ty) else zones

/-- restoreData of the dynamic client (src/unnamed/part_003). An empty or missing
record list performs no overwrite: the current zones are returned unchanged and the
Bool flag records that refreshData, an asynchronous refetch of authoritative server
state, was triggered instead. Otherwise a reset copy of the current zones is rebuilt
from the records; this variant has no timeOut filter. -/
def restoreDataDyn (records : Option (List VehicleRecord)) (zones : List Zone) :
    List Zone × Bool :=
  match records with
  | none => (zones, true)
  | some [] => (zones, true)
  | some rs => (rs.foldl restoreStepDyn (zones.map resetZone), false)

/-- One appended event (utils/persistence.ts appendEvent); createdAt stands for the
epoch milliseconds that the sort comparator obtains via new Date(createdAt).getTime(). -/
structure PEvent where
  createdAt : Int
  record : VehicleRecord
deriving DecidableEq, Repr

/-- Stable ascending insertion by createdAt. -/
def insertByTime (e : PEvent) : List PEvent → List PEvent
  | [] => [e]
  | f :: fs => if e.createdAt ≤ f.createdAt then e :: f :: fs else f :: insertByTime e fs

/-- The stable ascending sort events.sort((a, b) => timeA - timeB) of
rebuildStateFromEvents; ECMAScript sort is stable, and a stable sort under a total
preorder comparator has a unique result, modelled here by stable insertion sort. -/
def sortEvents : List PEvent → List PEvent
  | [] => []
  | e :: es => insertByTime e (sortEvents es)

/-- Insertion-ordered string-keyed association list modelling a JavaScript Map: set
overwrites an existing key in place and appends a new key at the end. -/
def setKey {β : Type} : List (String × β) → String → β → List (String × β)
  | [], k, v => [(k, v)]
  | (k1, v1) :: m, k, v =>
    if k1 == k then (k, v) :: m else (k1, v1) :: setKey m k v

/-- Map.get: the value stored at a key, if any. -/
def getKey {β : Type} : List (String × β) → String → Option β
  | [], _ => none
  | (k1, v1) :: m, k => if k1 == k then some v1 else getKey m k

/-- One fold step of rebuildStateFromEvents: vehicleMap.set(record.plate, record). -/
def replayStep (m : List (String × VehicleRecord)) (e : PEvent) :
    List (String × VehicleRecord) :=
  setKey m e.record.plate e.record

/-- rebuildStateFromEvents (utils/persistence.ts): sort the events ascending by
createdAt, fold them into a plate-keyed map where the last event for a plate wins, and
return the map values (Array.from(vehicleMap.values())). -/
def rebuildStateFromEvents (events : List PEvent) : List VehicleRecord :=
  ((sortEvents events).foldl replayStep []).map (fun p => p.2)

/-- Snapshot metadata (makeSnapshotFromState meta object). -/
structure SnapshotMeta where
  app : String
  version : Nat
  createdAt : String
  recordCount : Nat
deriving DecidableEq, Repr

/-- A snapshot payload { meta, data }. -/
structure SnapshotPayload where
  meta : SnapshotMeta
  data : List VehicleRecord
deriving DecidableEq, Repr

/-- The backups object store, keyed by snapshot id; IndexedDB put is an upsert. The
stored object { id, ...payload } is modelled as the key paired with the payload, so
reading the value is exactly the source stripping of the internal id field. -/
abbrev SnapshotStore := List (String × SnapshotPayload)

/-- saveLatestSnapshot (utils/persistence.ts): put the payload under the reserved key
latest and under the fresh timestamp-derived key snap-Date.now(). -/
def saveLatestSnapshot (payload : SnapshotPayload) (now : Nat) (store : SnapshotStore) :
    SnapshotStore :=
  setKey (setKey store "latest" payload) ("snap-" ++ Nat.repr now) payload

/-- loadLatestSnapshotPayload: read the latest entry, strip the internal id field and
return the payload, or null when no snapshot was ever saved. -/
def loadLatestSnapshotPayload (store : SnapshotStore) : Option SnapshotPayload :=
  getKey store "latest"

/-- The store before any snapshot was saved. -/
def emptySnapshotStore : SnapshotStore := []

/-- Outcome of one quick-recovery click: restored = some rs exactly when the restore
callback was invoked with rs, plus the success flag of the reported status. -/
structure QuickRecoveryOutcome where
  restored : Option (List VehicleRecord)
  success : Bool
deriving DecidableEq, Repr

/-- handleQuickRecovery of components/PoliceBackup.tsx as a function of the awaited
getRecords outcome: a thrown error or an empty record list reports failure without
invoking onRestore; otherwise onRestore(records) is invoked and success reported. -/
def handleQuickRecoveryPB (fetched : Except String (List VehicleRecord)) :
    QuickRecoveryOutcome :=
  match fetched with
  | .error _ => ⟨none, false⟩
  | .ok records => if records.length == 0 then ⟨none, false⟩ else ⟨some records, true⟩

/-- One row of GET /api/reports as consumed by pages/Backup.tsx. -/
structure ReportRow where
  vehicle : String
  zone : String
  entryTime : String
  status : String
  type : String
deriving DecidableEq, Repr

/-- The row-to-record mapping of pages/Backup.tsx handleQuickRecovery. -/
def rowToRecord (r : ReportRow) : VehicleRecord :=
  { plate := r.vehicle, zone := r.zone, timeIn := r.entryTime, timeOut := none,
    type := r.type.toLower }

/-- handleQuickRecovery of pages/Backup.tsx as a function of the awaited fetch outcome:
the guard rejects only a null or non-array response (modelled as none); any array,
however empty, is filtered to status INSIDE, mapped to records and passed to
restoreData, with success reported. -/
def handleQuickRecoveryPage (fetched : Except String (Option (List ReportRow))) :
    QuickRecoveryOutcome :=
  match fetched with
  | .error _ => ⟨none, false⟩
  | .ok none => ⟨none, false⟩
  | .ok (some rows) =>
    ⟨some ((rows.filter (fun r => r.status == "INSIDE")).map rowToRecord), true⟩

/-- The section 8 snapshot scenario: one still-parked light record and one exited
medium record, both addressed to zone Z1. -/
def scenarioRecords : List VehicleRecord :=
  [⟨"KL01AB1234", "Z1", "2025-01-01T10:00:00Z", none, "light"⟩,
   ⟨"KL01CD5678", "Z1", "2025-01-01T09:00:00Z", some "2025-01-01T11:00:00Z", "medium"⟩]

/-- A single fresh client zone Z1 matching the section 8 scenario parameters. -/
def zoneZ1 : Zone := ⟨"Z1", "Zone 1", 50, 0, [], ⟨10, 15, 25⟩, ⟨0, 0, 0⟩⟩

/-- A fresh server zone Z1 with the section 8 scenario parameters. -/
def serverZ1 : ServerZone := ⟨"Z1", "Zone 1", 50, 0, ⟨10, 15, 25⟩, ⟨0, 0, 0⟩⟩

/-- Server zone Z1 at full capacity with every class limit reached. -/
def serverZ1full : ServerZone := ⟨"Z1", "Zone 1", 50, 50, ⟨10, 15, 25⟩, ⟨10, 15, 25⟩⟩

/-- The zone state the server leaves behind after an entry with type suv into a fresh
Z1: occupied incremented, none of the three class counters touched. -/
def serverZ1suv : ServerZone := ⟨"Z1", "Zone 1", 50, 1, ⟨10, 15, 25⟩, ⟨0, 0, 0⟩⟩

/-! ## Shared lemmas -/

/-- Membership-preservation engine for the restore folds. -/
theorem forall_mem_foldl {α β : Type} (step : List α → β → List α) (P : α → Prop)
    (h : ∀ zs r, (∀ w ∈ zs, P w) → ∀ z ∈ step zs r, P z) :
    ∀ (rs : List β) (zs : List α), (∀ w ∈ zs, P w) → ∀ z ∈ rs.foldl step zs, P z := by
  intro rs
  induction rs with
  | nil => intro zs h0; simpa using h0
  | cons r rs ih => intro zs h0; exact ih (step zs r) (h zs r h0)

/-- Every restore step either leaves the zone list unchanged or replaces one position
with addVehicle applied to a member zone. -/
def ConservativeStep (step : List Zone → VehicleRecord → List Zone) : Prop :=
  ∀ zs r, step zs r = zs ∨
    ∃ j w ty, w ∈ zs ∧ step zs r = zs.set j (addVehicle w r ty)

theorem restoreStep002_conservative : ConservativeStep restoreStep002 := by
  intro zs r
  simp only [restoreStep002]
  split
  · exact Or.inl rfl
  · split
    · exact Or.inl rfl
    · split
      · exact Or.inl rfl
      · split
        · exact Or.inl rfl
        · split
          · exact Or.inl rfl
          · rename_i w hw
            exact Or.inr ⟨_, w, _, List.getElem?_mem hw, rfl⟩

theorem restoreStepApi_conservative : ConservativeStep restoreStepApi := by
  intro zs r
  simp only [restoreStepApi]
  split
  · exact Or.inl rfl
  · split
    · exact Or.inl rfl
    · split
      · exact Or.inl rfl
      · rename_i z hz
        split
        · exact Or.inr ⟨_, z, _, List.getElem?_mem hz, rfl⟩
        · exact Or.inl rfl

theorem restoreStepDyn_conservative : ConservativeStep restoreStepDyn := by
  intro zs r
  simp only [restoreStepDyn]
  split
  · exact Or.inl rfl
  · split
    · exact Or.inl rfl
    · rename_i z hz
      split
      · exact Or.inr ⟨_, z, _, List.getElem?_mem hz, rfl⟩
      · exact Or.inl rfl

/-- Any property preserved by addVehicle propagates through a conservative fold. -/
theorem mem_foldl_conservative (step : List Zone → VehicleRecord → List Zone)
    (hstep : ConservativeStep step) (P : Zone → Prop)
    (hadd : ∀ w r ty, P w → P (addVehicle w r ty)) (records : List VehicleRecord)
    (zs : List Zone) (h0 : ∀ w ∈ zs, P w) : ∀ z ∈ records.foldl step zs, P z := by
  refine forall_mem_foldl step P ?_ records zs h0
  intro zs r hz z hmem
  rcases hstep zs r with h | ⟨j, w, ty, hw, h⟩
  · rw [h] at hmem
    exact hz z hmem
  · rw [h] at hmem
    rcases List.mem_or_eq_of_mem_set hmem with h1 | h1
    · exact hz z h1
    · exact h1 ▸ hadd w r ty (hz w hw)

theorem inc_total (c : TypeCounts) (t : VehicleType) :
    (c.inc t).total = c.total + 1 := by
  cases t <;> simp [TypeCounts.inc, TypeCounts.total] <;> omega

theorem statsBump_total_of_valid (c : TypeCounts) (ty : String)
    (h : ty = "heavy" ∨ ty = "medium" ∨ ty = "light") :
    (statsBump c ty).total = c.total + 1 := by
  rcases h with rfl | rfl | rfl <;>
    simp [statsBump, parseVehicleType, inc_total]

theorem getKey_setKey {β : Type} (m : List (String × β)) (k q : String) (v : β) :
    getKey (setKey m k v) q = if k == q then some v else getKey m q := by
  induction m with
  | nil => simp [setKey, getKey]
  | cons p m ih =>
    obtain ⟨k1, v1⟩ := p
    simp only [setKey, getKey, beq_iff_eq]
    split_ifs with h1 h2 h3 h4 h5 <;> simp_all [getKey, beq_iff_eq]

theorem mem_setKey {β : Type} (m : List (String × β)) (k : String) (v : β)
    (p : String × β) (h : p ∈ setKey m k v) : p ∈ m ∨ p = (k, v) := by
  induction m with
  | nil => simpa [setKey] using h
  | cons q m ih =>
    obtain ⟨k1, v1⟩ := q
    by_cases h1 : k1 == k
    · simp only [setKey, if_pos h1] at h
      rcases List.mem_cons.mp h with rfl | h2
      · exact Or.inr rfl
      · exact Or.inl (List.mem_cons_of_mem _ h2)
    · simp only [setKey, if_neg h1] at h
      rcases List.mem_cons.mp h with rfl | h2
      · exact Or.inl (List.mem_cons_self _ _)
      · rcases ih h2 with h3 | h3
        · exact Or.inl (List.mem_cons_of_mem _ h3)
        · exact Or.inr h3

/-- The occupied-equals-class-total invariant survives a server entry whose type string
names a declared class. -/
theorem createVehicleEntry_total (zones : List ServerZone) (zid : Option String)
    (ty : String) (out : List ServerZone)
    (hinv : ∀ z ∈ zones, z.occupied = z.stats.total)
    (hty : ty = "heavy" ∨ ty = "medium" ∨ ty = "light")
    (hok : createVehicleEntry zones zid ty = .ok out) :
    ∀ z ∈ out, z.occupied = z.stats.total := by
  cases zid with
  | none => simp [createVehicleEntry] at hok
  | some zid =>
    cases hfind : zones.find? (fun z => z.id == zid) with
    | none => simp [createVehicleEntry, hfind] at hok
    | some z0 =>
      have hz0 : z0 ∈ zones := List.mem_of_find?_eq_some hfind
      simp only [createVehicleEntry, hfind, Except.ok.injEq] at hok
      subst hok
      intro z hz
      rcases List.mem_map.mp hz with ⟨w, hw, rfl⟩
      by_cases h : (w.id == zid) = true
      · simp only [h, if_pos]
        have := hinv z0 hz0
        simp [this, statsBump_total_of_valid z0.stats ty hty]
      · simp only [h]
        simpa using hinv w hw

/-- Zones of the reset base satisfy the class-total invariant. -/
theorem reset_total (zs : List Zone) : ∀ w ∈ zs.map resetZone, w.occupied = w.stats.total := by
  intro w hw
  rcases List.mem_map.mp hw with ⟨u, _, rfl⟩
  simp [resetZone, TypeCounts.zero, TypeCounts.total]

/-- addVehicle keeps the class-total invariant. -/
theorem addVehicle_total (w : Zone) (r : VehicleRecord) (ty : VehicleType)
    (h : w.occupied = w.stats.total) : (addVehicle w r ty).occupied = (addVehicle w r ty).stats.total := by
  simp [addVehicle, inc_total, h]

/-- Zones of the reset base are empty and zeroed. -/
theorem reset_zeroed (zs : List Zone) :
    ∀ w ∈ zs.map resetZone, w.vehicles = [] → w.occupied = 0 ∧ w.stats = TypeCounts.zero := by
  intro w hw _
  rcases List.mem_map.mp hw with ⟨u, _, rfl⟩
  simp [resetZone]

/-- addVehicle never leaves an empty vehicle list, so the zeroed-when-empty property is
vacuously preserved. -/
theorem addVehicle_zeroed (w : Zone) (r : VehicleRecord) (ty : VehicleType) :
    (addVehicle w r ty).vehicles = [] →
      (addVehicle w r ty).occupied = 0 ∧ (addVehicle w r ty).stats = TypeCounts.zero := by
  intro h
  simp [addVehicle] at h

/-- The dynamic resolver treats every record whose zone matches no current zone name or
id by a single uniform rule: drop when there are no zones, else the first zone. -/
theorem resolveZoneDyn_unmatched (zones : List Zone) (recZone : String)
    (h : ∀ z ∈ zones, (z.name == recZone || z.id == recZone) = false) :
    resolveZoneDyn zones recZone = if zones.isEmpty then none else some 0 := by
  rw [resolveZoneDyn, List.findIdx?_eq_none_iff.mpr h]

/-- The fixed-zone resolver falls back to the first zone only for records that also
fail the fuzzy containment match. -/
theorem resolveZone002_unmatched (zones : List Zone) (recZone : String)
    (hname : ∀ z ∈ zones, (z.name == recZone) = false)
    (hid : ∀ z ∈ zones, (z.id == recZone) = false)
    (hfuzzy : ∀ z ∈ zones, (strIncludes z.name recZone || strIncludes recZone z.id) = false) :
    resolveZone002 zones recZone = if zones.isEmpty then none else some 0 := by
  rw [resolveZone002, List.findIdx?_eq_none_iff.mpr hname, List.findIdx?_eq_none_iff.mpr hid]
  by_cases h : (recZone == "") = true
  · simp [h]
  · simp [h, List.findIdx?_eq_none_iff.mpr hfuzzy]

/-! ## Lemmas about the event-replay reconstructor -/

theorem mem_insertByTime (e x : PEvent) (l : List PEvent) :
    x ∈ insertByTime e l ↔ x = e ∨ x ∈ l := by
  induction l with
  | nil => simp [insertByTime]
  | cons f fs ih =>
    by_cases h : e.createdAt ≤ f.createdAt
    · simp [insertByTime, h]
    · simp [insertByTime, h, ih]
      tauto

theorem perm_insertByTime (e : PEvent) (l : List PEvent) :
    List.Perm (insertByTime e l) (e :: l) := by
  induction l with
  | nil => simp [insertByTime]
  | cons f fs ih =>
    by_cases h : e.createdAt ≤ f.createdAt
    · simp [insertByTime, h]
    · simp only [insertByTime, if_neg h]
      exact (ih.cons f).trans (List.Perm.swap e f fs)

theorem perm_sortEvents (l : List PEvent) : List.Perm (sortEvents l) l := by
  induction l with
  | nil => simp [sortEvents]
  | cons e es ih => exact (perm_insertByTime e (sortEvents es)).trans (ih.cons e)

theorem pairwise_insertByTime (e : PEvent) (l : List PEvent)
    (h : l.Pairwise (fun a b => a.createdAt ≤ b.createdAt)) :
    (insertByTime e l).Pairwise (fun a b => a.createdAt ≤ b.createdAt) := by
  induction l with
  | nil => simp [insertByTime]
  | cons f fs ih =>
    rcases List.pairwise_cons.mp h with ⟨hf, hfs⟩
    by_cases hef : e.createdAt ≤ f.createdAt
    · simp only [insertByTime, if_pos hef]
      refine List.pairwise_cons.mpr ⟨?_, h⟩
      intro x hx
      rcases List.mem_cons.mp hx with rfl | hx
      · exact hef
      · exact le_trans hef (hf x hx)
    · simp only [insertByTime, if_neg hef]
      refine List.pairwise_cons.mpr ⟨?_, ih hfs⟩
      intro x hx
      rcases (mem_insertByTime e x fs).mp hx with rfl | hx
      · exact le_of_not_le hef
      · exact hf x hx

theorem pairwise_sortEvents (l : List PEvent) :
    (sortEvents l).Pairwise (fun a b => a.createdAt ≤ b.createdAt) := by
  induction l with
  | nil => simp [sortEvents]
  | cons e es ih => exact pairwise_insertByTime e _ ih

theorem mem_map_fst_setKey {β : Type} (m : List (String × β)) (k : String) (v : β)
    (a : String) : a ∈ (setKey m k v).map Prod.fst ↔ a = k ∨ a ∈ m.map Prod.fst := by
  induction m with
  | nil => simp [setKey]
  | cons p m ih =>
    obtain ⟨k1, v1⟩ := p
    by_cases h : (k1 == k) = true
    · have : k1 = k := by simpa [beq_iff_eq] using h
      subst this
      simp [setKey, h]
    · simp [setKey, h, ih]
      tauto

theorem nodup_map_fst_setKey {β : Type} (m : List (String × β)) (k : String) (v : β)
    (h : (m.map Prod.fst).Nodup) : ((setKey m k v).map Prod.fst).Nodup := by
  induction m with
  | nil => simp [setKey]
  | cons p m ih =>
    obtain ⟨k1, v1⟩ := p
    simp only [List.map_cons, List.nodup_cons] at h
    by_cases hk : (k1 == k) = true
    · have : k1 = k := by simpa [beq_iff_eq] using hk
      subst this
      simp only [setKey, if_pos hk, List.map_cons, List.nodup_cons]
      exact ⟨h.1, h.2⟩
    · simp only [setKey, if_neg hk, List.map_cons, List.nodup_cons]
      refine ⟨?_, ih h.2⟩
      intro hmem
      rcases (mem_map_fst_setKey m k v k1).mp hmem with rfl | hmem
      · simp at hk
      · exact h.1 hmem

theorem getKey_mem_nodup {β : Type} (m : List (String × β)) (k : String) (v : β)
    (hmem : (k, v) ∈ m) (hnd : (m.map Prod.fst).Nodup) : getKey m k = some v := by
  induction m with
  | nil => simp at hmem
  | cons p m ih =>
    obtain ⟨k1, v1⟩ := p
    simp only [List.map_cons, List.nodup_cons] at hnd
    rcases List.mem_cons.mp hmem with h | h
    · have hk := congrArg Prod.fst h
      have hv := congrArg Prod.snd h
      simp only at hk hv
      subst hk
      subst hv
      simp [getKey]
    · have hk1 : (k1 == k) = false := by
        by_contra hcon
        have : k1 = k := by
          cases hb : (k1 == k)
          · simp [hb] at hcon
          · simpa [beq_iff_eq] using hb
        subst this
        exact hnd.1 (List.mem_map.mpr ⟨(k1, v), h, rfl⟩)
      simp [getKey, hk1, ih h hnd.2]

theorem replay_fold_fst (es : List PEvent) :
    ∀ (m : List (String × VehicleRecord)), (∀ q ∈ m, q.1 = q.2.plate) →
      ∀ q ∈ es.foldl replayStep m, q.1 = q.2.plate := by
  induction es with
  | nil => intro m hm; simpa using hm
  | cons e es ih =>
    intro m hm
    refine ih _ ?_
    intro q hq
    rcases mem_setKey _ _ _ _ hq with h | h
    · exact hm q h
    · subst h; rfl

theorem replay_fold_nodup (es : List PEvent) :
    ∀ (m : List (String × VehicleRecord)), ((m.map Prod.fst).Nodup) →
      (((es.foldl replayStep m).map Prod.fst).Nodup) := by
  induction es with
  | nil => intro m hm; simpa using hm
  | cons e es ih =>
    intro m hm
    exact ih _ (nodup_map_fst_setKey m _ _ hm)

theorem replay_fold_mem_keys (es : List PEvent) :
    ∀ (m : List (String × VehicleRecord)) (a : String),
      a ∈ (es.foldl replayStep m).map Prod.fst ↔
        a ∈ m.map Prod.fst ∨ ∃ e ∈ es, e.record.plate = a := by
  induction es with
  | nil => intro m a; simp
  | cons e es ih =>
    intro m a
    rw [List.foldl_cons, ih]
    simp only [replayStep, mem_map_fst_setKey, List.mem_cons]
    constructor
    · rintro (⟨rfl | h⟩ | ⟨f, hf, rfl⟩)
      · exact Or.inr ⟨e, Or.inl rfl, rfl⟩
      · exact Or.inl h
      · exact Or.inr ⟨f, Or.inr hf, rfl⟩
    · rintro (h | ⟨f, (rfl | hf), rfl⟩)
      · exact Or.inl (Or.inr h)
      · exact Or.inl (Or.inl rfl)
      · exact Or.inr ⟨f, hf, rfl⟩

theorem replay_fold_getKey (es : List PEvent) :
    ∀ (m : List (String × VehicleRecord)) (k : String),
      getKey (es.foldl replayStep m) k =
        match es.reverse.find? (fun e => e.record.plate == k) with
        | some e => some e.record
        | none => getKey m k := by
  induction es with
  | nil => intro m k; simp
  | cons e es ih =>
    intro m k
    rw [List.foldl_cons, ih, List.reverse_cons, List.find?_append]
    cases hfind : es.reverse.find? (fun f => f.record.plate == k) with
    | some f => simp [Option.or]
    | none =>
      simp only [Option.none_or]
      rw [replayStep, getKey_setKey]
      by_cases hp : (e.record.plate == k) = true <;> simp [List.find?, hp]

/-! ## Claim theorems -/

/-- C1 (code bug). The claim says a vehicle entry that would exceed the zone capacity
or the per-class limit is rejected, and in particular that with capacity 50 and
limits.heavy 10 the eleventh heavy entry into Z1 fails while stats.heavy stays 10. The
server MemStorage.createVehicleEntry performs no capacity or limit check at all:
replaying eleven heavy entries into a fresh Z1 succeeds on every request and leaves
stats.heavy at 11, one over its limit, refuting the claimed rejection at the concrete
claimed input. -/
theorem entry_unchecked_heavy_overflow :
    entryChain [serverZ1] (List.replicate 11 (some "Z1", "heavy")) =
      .ok [⟨"Z1", "Zone 1", 50, 11, ⟨10, 15, 25⟩, ⟨11, 0, 0⟩⟩] := by
  rfl

/-- C5 (code bug). The claim says an entry without a zoneId auto-selects the first zone
with room, a full requested zone falls back to the first available zone, and the entry
fails only when no zone can accept the vehicle. The server code does neither: with a
fresh Z1 available (occupied strictly below capacity) an omitted zone field throws Zone
not found, and an entry aimed at a completely full Z1 still succeeds and pushes
occupied to 51, above the capacity of 50, instead of falling back. -/
theorem entry_no_autoselect_no_fallback :
    createVehicleEntry [serverZ1] none "light" = .error "Zone not found" ∧
    serverZ1.occupied < serverZ1.capacity ∧
    createVehicleEntry [serverZ1full] (some "Z1") "light" =
      .ok [⟨"Z1", "Zone 1", 50, 51, ⟨10, 15, 25⟩, ⟨10, 15, 26⟩⟩] ∧
    serverZ1full.capacity ≤ serverZ1full.occupied :=
  ⟨rfl, by decide, rfl, by decide⟩

/-- C3 counterexample. An entry whose type string names none of the three classes (the
route forwards req.body.type unvalidated) increments occupied but none of the three
stats counters, so occupied differs from stats.heavy + stats.medium + stats.light
immediately after the entry. -/
theorem entry_unknown_type_breaks_total :
    createVehicleEntry [serverZ1] (some "Z1") "suv" = .ok [serverZ1suv] ∧
    serverZ1suv.occupied ≠ serverZ1suv.stats.total :=
  ⟨rfl, by decide⟩

/-- C3 (amended). occupied = stats.heavy + stats.medium + stats.light holds for every
zone after any restore through the fixed-zone restoreData, for every input, and it is
preserved by a server vehicle entry whose type string is heavy, medium or light; the
unrestricted claim fails for entries carrying any other type string. -/
theorem occupied_eq_stats_total_entry_restore :
    (∀ (records : List VehicleRecord), ∀ z ∈ restoreData002 records,
      z.occupied = z.stats.total) ∧
    (∀ (zones : List ServerZone) (zid : Option String) (ty : String)
        (out : List ServerZone),
      (∀ z ∈ zones, z.occupied = z.stats.total) →
      (ty = "heavy" ∨ ty = "medium" ∨ ty = "light") →
      createVehicleEntry zones zid ty = .ok out →
      ∀ z ∈ out, z.occupied = z.stats.total) := by
  constructor
  · intro records
    exact mem_foldl_conservative restoreStep002 restoreStep002_conservative _
      addVehicle_total records (initialZones.map resetZone) (reset_total initialZones)
  · exact createVehicleEntry_total

/-- C3 witness: the amended preservation statement applied to one concrete heavy entry
into a fresh Z1. -/
theorem occupied_eq_stats_total_witness :
    (∀ z ∈ [serverZ1], z.occupied = z.stats.total) ∧
    createVehicleEntry [serverZ1] (some "Z1") "heavy" =
      .ok [⟨"Z1", "Zone 1", 50, 1, ⟨10, 15, 25⟩, ⟨1, 0, 0⟩⟩] ∧
    (∀ z ∈ [(⟨"Z1", "Zone 1", 50, 1, ⟨10, 15, 25⟩, ⟨1, 0, 0⟩⟩ : ServerZone)],
      z.occupied = z.stats.total) :=
  ⟨by decide, rfl,
    occupied_eq_stats_total_entry_restore.2 [serverZ1] (some "Z1") "heavy"
      [⟨"Z1", "Zone 1", 50, 1, ⟨10, 15, 25⟩, ⟨1, 0, 0⟩⟩] (by decide) (Or.inl rfl) rfl⟩

/-- C2 counterexample. The dynamic restoreData of src/unnamed/part_003 has no timeOut
filter: restoring the section 8 two-record snapshot (one record with timeOut null, one
with a non-null timeOut) onto a zero-state Z1 yields occupied 2, not the claimed 1. -/
theorem restoreDyn_counts_exited_record :
    ((restoreDataDyn (some scenarioRecords) [zoneZ1]).1[0]?).map Zone.occupied = some 2 ∧
    ¬ ((restoreDataDyn (some scenarioRecords) [zoneZ1]).1[0]?).map Zone.occupied = some 1 := by
  constructor <;> decide

/-- C2 (amended). The fixed-zone restore variants count only records whose timeOut is
falsy: a truthy timeOut makes the part_002 restore step a no-op, and restoring the
section 8 snapshot through the part_002 restoreData leaves Z1 with occupied 1 and
stats.light 1; the dynamic part_003 variant applies no timeOut filter and counts every
record subject only to capacity, yielding occupied 2 on the same snapshot. -/
theorem restore_timeout_filter_by_variant :
    (∀ (zs : List Zone) (r : VehicleRecord), truthy r.timeOut = true →
      restoreStep002 zs r = zs) ∧
    ((restoreData002 scenarioRecords)[0]?).map
      (fun z => (z.occupied, z.stats.light)) = some (1, 1) ∧
    ((restoreDataDyn (some scenarioRecords) [zoneZ1]).1[0]?).map Zone.occupied = some 2 := by
  refine ⟨?_, by decide, by decide⟩
  intro zs r h
  rw [restoreStep002, if_pos h]

/-- C2 witness: the timeOut filter conjunct applied to one concrete exited record. -/
theorem restore_timeout_filter_witness :
    truthy (some "2025-01-01T11:00:00Z") = true ∧
    restoreStep002 [zoneZ1]
      ⟨"KL01CD5678", "Z1", "2025-01-01T09:00:00Z", some "2025-01-01T11:00:00Z", "medium"⟩ =
      [zoneZ1] :=
  ⟨by decide, restore_timeout_filter_by_variant.1 [zoneZ1]
    ⟨"KL01CD5678", "Z1", "2025-01-01T09:00:00Z", some "2025-01-01T11:00:00Z", "medium"⟩
    (by decide)⟩

/-- C6 (confirmed). Both fixed-zone restore variants rebuild from a reset copy of
INITIAL_ZONES and take no other zone state as input, so the result is a full
replacement; every zone that received no record during the fold still has its empty
vehicle list and therefore ends with occupied 0, no vehicles and all-zero stats. -/
theorem restore_full_overwrite_zeroes :
    (∀ (records : List VehicleRecord), ∀ z ∈ restoreData002 records,
      z.vehicles = [] → z.occupied = 0 ∧ z.stats = TypeCounts.zero) ∧
    (∀ (records : List VehicleRecord), ∀ z ∈ restoreDataApi records,
      z.vehicles = [] → z.occupied = 0 ∧ z.stats = TypeCounts.zero) := by
  constructor
  · intro records
    exact mem_foldl_conservative restoreStep002 restoreStep002_conservative _
      (fun w r ty _ => addVehicle_zeroed w r ty) records
      (initialZones.map resetZone) (reset_zeroed initialZones)
  · intro records
    exact mem_foldl_conservative restoreStepApi restoreStepApi_conservative _
      (fun w r ty _ => addVehicle_zeroed w r ty) records
      (initialZones.map resetZone) (reset_zeroed initialZones)

/-- C6 witness: the zeroing statement applied to the first zone after restoring an
empty record list. -/
theorem restore_full_overwrite_witness :
    (resetZone (initialZone 0) ∈ restoreData002 []) ∧
    (resetZone (initialZone 0)).vehicles = [] ∧
    ((resetZone (initialZone 0)).occupied = 0 ∧
      (resetZone (initialZone 0)).stats = TypeCounts.zero) :=
  ⟨by decide, by decide,
    restore_full_overwrite_zeroes.1 [] (resetZone (initialZone 0)) (by decide) (by decide)⟩

/-- C7 counterexample. In the part_002 restore, two records whose zone field matches no
zone name and no zone id in a single call are routed inconsistently: the record with
zone field Zone 5 is placed in the fifth zone through the fuzzy containment match while
the record with zone field QQQQ falls back to the first zone, so unmatched records are
neither uniformly dropped nor uniformly assigned to the first zone. -/
theorem restore002_mixed_unmatched_routing :
    (initialZones.all (fun z => !(z.name == "Zone 5" || z.id == "Zone 5"))) = true ∧
    (initialZones.all (fun z => !(z.name == "QQQQ" || z.id == "QQQQ"))) = true ∧
    ((restoreData002 [⟨"A", "Zone 5", "t1", none, "light"⟩,
        ⟨"B", "QQQQ", "t2", none, "light"⟩])[4]?).map
      (fun z => z.vehicles.map (fun v => v.number)) = some ["A"] ∧
    ((restoreData002 [⟨"A", "Zone 5", "t1", none, "light"⟩,
        ⟨"B", "QQQQ", "t2", none, "light"⟩])[0]?).map
      (fun z => z.vehicles.map (fun v => v.number)) = some ["B"] := by
  refine ⟨by decide, by decide, by decide, by decide⟩

/-- C7 (amended). The dynamic part_003 restore does treat unmatched records by one
uniform policy per call: with no zones every record is dropped and otherwise every
unmatched record resolves to the first zone. The fixed-zone part_002 restore applies
the first-zone fallback only to unmatched records that also fail the fuzzy containment
match, so records unmatched by name and id can be routed to different zones within one
call. -/
theorem unmatched_policy_by_variant :
    (∀ (zones : List Zone) (recZone : String),
      (∀ z ∈ zones, (z.name == recZone || z.id == recZone) = false) →
      resolveZoneDyn zones recZone = if zones.isEmpty then none else some 0) ∧
    (∀ (zones : List Zone) (recZone : String),
      (∀ z ∈ zones, (z.name == recZone) = false) →
      (∀ z ∈ zones, (z.id == recZone) = false) →
      (∀ z ∈ zones, (strIncludes z.name recZone || strIncludes recZone z.id) = false) →
      resolveZone002 zones recZone = if zones.isEmpty then none else some 0) :=
  ⟨resolveZoneDyn_unmatched, resolveZone002_unmatched⟩

/-- C7 witness: both uniform-policy statements applied to a concrete unmatched zone
string against the single concrete zone Z1. -/
theorem unmatched_policy_witness :
    (∀ z ∈ [zoneZ1], (z.name == "XYZW" || z.id == "XYZW") = false) ∧
    resolveZoneDyn [zoneZ1] "XYZW" = some 0 ∧
    resolveZone002 [zoneZ1] "XYZW" = some 0 := by
  refine ⟨by decide, ?_, ?_⟩
  · have h := unmatched_policy_by_variant.1 [zoneZ1] "XYZW" (by decide)
    simpa using h
  · have h := unmatched_policy_by_variant.2 [zoneZ1] "XYZW"
      (by decide) (by decide) (by decide)
    simpa using h

/-- C8 counterexample. The pages/Backup.tsx quick recovery guard rejects only a null or
non-array response: an empty report array passes it, so restoreData is invoked with an
empty record list and success is reported, although zero records were fetched. -/
theorem quick_recovery_page_empty_invokes_restore :
    handleQuickRecoveryPage (.ok (some [])) = ⟨some [], true⟩ := rfl

/-- C8 (amended). In the PoliceBackup.tsx controller the claim holds: the restore
callback is invoked exactly when the fetch succeeded with a nonempty record list, and
never on a thrown error. In the pages/Backup.tsx controller only a thrown error or a
null/non-array response blocks the restore; every fetched array, even one that is empty
or yields no INSIDE rows, still reaches restoreData. -/
theorem quick_recovery_gating_by_variant :
    (∀ rs : List VehicleRecord,
      (handleQuickRecoveryPB (.ok rs)).restored ≠ none ↔ rs ≠ []) ∧
    (∀ msg : String, (handleQuickRecoveryPB (.error msg)).restored = none) ∧
    (∀ msg : String, (handleQuickRecoveryPage (.error msg)).restored = none) ∧
    ((handleQuickRecoveryPage (.ok none)).restored = none) ∧
    (∀ rows : List ReportRow,
      (handleQuickRecoveryPage (.ok (some rows))).restored ≠ none) := by
  refine ⟨?_, fun _ => rfl, fun _ => rfl, rfl, fun _ => by simp [handleQuickRecoveryPage]⟩
  intro rs
  cases rs <;> simp [handleQuickRecoveryPB]

/-- C9 (confirmed). saveLatestSnapshot stores the payload under the reserved latest key
and under the timestamp-derived snap key; a subsequent loadLatestSnapshotPayload
returns exactly the saved meta and data with the internal id stripped, and on a store
where nothing was ever saved it returns null. -/
theorem snapshot_save_load_roundtrip :
    (∀ (payload : SnapshotPayload) (now : Nat) (store : SnapshotStore),
      loadLatestSnapshotPayload (saveLatestSnapshot payload now store) = some payload) ∧
    (∀ (payload : SnapshotPayload) (now : Nat) (store : SnapshotStore),
      getKey (saveLatestSnapshot payload now store) ("snap-" ++ Nat.repr now) =
        some payload) ∧
    loadLatestSnapshotPayload emptySnapshotStore = none := by
  refine ⟨?_, ?_, rfl⟩ <;> intro payload now store <;>
    rw [saveLatestSnapshot] <;> try rw [loadLatestSnapshotPayload]
  · rw [getKey_setKey, getKey_setKey]
    split_ifs <;> simp_all
  · rw [getKey_setKey]
    simp

/-- C10 (confirmed). The dynamic restoreData of src/unnamed/part_003 treats a missing
or empty record list as a no-op on the zone list: the zones are returned unchanged, no
reset or overwrite happens, and the asynchronous refetch of server state is triggered
instead. -/
theorem restoreDyn_empty_noop_refetch :
    (∀ zones : List Zone, restoreDataDyn none zones = (zones, true)) ∧
    (∀ zones : List Zone, restoreDataDyn (some []) zones = (zones, true)) :=
  ⟨fun _ => rfl, fun _ => rfl⟩

/-- C4 (confirmed). rebuildStateFromEvents sorts the events ascending by createdAt (the
sorted list is an ascending-ordered permutation of the input), folds them into a
plate-keyed map in which a later event overwrites an earlier one with the same plate,
and returns exactly one record per distinct plate of the input: the returned plate list
is duplicate free, a plate occurs in the output exactly when some input event carries
it, and the record returned for a plate is the record of the last event for that plate
in the sorted order. -/
theorem rebuildState_sort_lastwrite_unique (events : List PEvent) :
    ((sortEvents events).Pairwise (fun a b => a.createdAt ≤ b.createdAt) ∧
      List.Perm (sortEvents events) events) ∧
    ((rebuildStateFromEvents events).map (fun r => r.plate)).Nodup ∧
    (∀ p : String, p ∈ (rebuildStateFromEvents events).map (fun r => r.plate) ↔
      p ∈ events.map (fun e => e.record.plate)) ∧
    (∀ r ∈ rebuildStateFromEvents events,
      ((sortEvents events).reverse.find? (fun e => e.record.plate == r.plate)).map
        (fun e => e.record) = some r) := by
  have hfst : ∀ q ∈ (sortEvents events).foldl replayStep [], q.1 = q.2.plate :=
    replay_fold_fst _ [] (by simp)
  have hnd : (((sortEvents events).foldl replayStep []).map Prod.fst).Nodup :=
    replay_fold_nodup _ [] (by simp)
  have hkeys : (rebuildStateFromEvents events).map (fun r => r.plate) =
      ((sortEvents events).foldl replayStep []).map Prod.fst := by
    rw [rebuildStateFromEvents, List.map_map]
    exact List.map_eq_map_iff.mpr (fun q hq => (hfst q hq).symm)
  refine ⟨⟨pairwise_sortEvents events, perm_sortEvents events⟩, ?_, ?_, ?_⟩
  · rw [hkeys]
    exact hnd
  · intro p
    rw [hkeys, replay_fold_mem_keys]
    simp only [List.map_nil, List.not_mem_nil, false_or]
    constructor
    · rintro ⟨e, he, rfl⟩
      exact List.mem_map.mpr ⟨e, (perm_sortEvents events).mem_iff.mp he, rfl⟩
    · intro hp
      rcases List.mem_map.mp hp with ⟨e, he, rfl⟩
      exact ⟨e, (perm_sortEvents events).mem_iff.mpr he, rfl⟩
  · intro r hr
    rcases List.mem_map.mp hr with ⟨q, hq, hq2⟩
    have hq1 : q.1 = r.plate := by rw [hfst q hq, hq2]
    have hqpair : ((r.plate, r) : String × VehicleRecord) ∈
        (sortEvents events).foldl replayStep [] := by
      have hqe : q = (r.plate, r) := by
        obtain ⟨a, b⟩ := q
        simp only at hq1 hq2
        simp [hq1, hq2]
      rwa [hqe] at hq
    have hget : getKey ((sortEvents events).foldl replayStep []) r.plate = some r :=
      getKey_mem_nodup _ _ _ hqpair hnd
    rw [replay_fold_getKey] at hget
    cases hfind : (sortEvents events).reverse.find? (fun e => e.record.plate == r.plate) with
    | none =>
      rw [hfind] at hget
      simp [getKey] at hget
    | some e =>
      rw [hfind] at hget
      simpa using hget

/-- C4 witness: the last-write-wins statement applied to a concrete two-event log for
one plate, whose rebuilt record is the record of the later event. -/
theorem rebuildState_witness :
    (⟨"A", "Z1", "t2", some "t3", "light"⟩ : VehicleRecord) ∈
      rebuildStateFromEvents
        [⟨200, ⟨"A", "Z1", "t2", some "t3", "light"⟩⟩,
         ⟨100, ⟨"A", "Z1", "t1", none, "light"⟩⟩] ∧
    ((sortEvents
        [⟨200, ⟨"A", "Z1", "t2", some "t3", "light"⟩⟩,
         ⟨100, ⟨"A", "Z1", "t1", none, "light"⟩⟩]).reverse.find?
      (fun e => e.record.plate == "A")).map (fun e => e.record) =
        some ⟨"A", "Z1", "t2", some "t3", "light"⟩ :=
  ⟨by decide,
    (rebuildState_sort_lastwrite_unique
      [⟨200, ⟨"A", "Z1", "t2", some "t3", "light"⟩⟩,
       ⟨100, ⟨"A", "Z1", "t1", none, "light"⟩⟩]).2.2.2
      ⟨"A", "Z1", "t2", some "t3", "light"⟩ (by decide)⟩

end ParkingVerify
